import Mathlib

/-!
Verification of the multi-tenant real-time chat backend.

This file shallowly embeds the data model and the handlers of the chat
service and settles the claims of the specification against them.

Conventions of the embedding:
* Mongo `ObjectId`s are modelled as `Nat`; tenant ids stay `String`.
* A tenant's isolated Mongo database (`tenant-<id>`) is a `TenantStore`;
  the whole cluster is a function `String → TenantStore` (`MTStore`).
* `findById` / `findOne` become `List.find?`; `countDocuments` becomes
  `List.filter` + `List.length`; a `findOne` with `.sort({createdAt: -1})`
  becomes a maximum-`createdAt` pick (`latestMessage`).
* `io.to(socketId).emit(...)` becomes an `Emission` value collected in a
  result list; the store after a handler is returned explicitly.
* Mongoose documents always carry the schema defaults, so `deletedFor`
  always exists as a list (the `$exists: false` disjunct of the source's
  `$or` filters is subsumed by the empty-list disjunct).
-/

/-- One entry of `Message.deletedFor` (per-participant soft delete):
`{ userId, deletedAt }` from `messageSchema` in src/models (deletedForSchema). -/
structure DeletedForEntry where
  userId : Nat
  deletedAt : Nat
deriving DecidableEq, Repr

/-- One entry of `Message.reactions`: `{ userId, emoji }` (reactionSchema). -/
structure Reaction where
  userId : Nat
  emoji : String
deriving DecidableEq, Repr

/-- A `messages` collection document (messageSchema).  Attachments, edit flag
and reply references are irrelevant to every claim and omitted. -/
structure Message where
  id : Nat
  chatId : Nat
  senderId : Nat
  body : String
  viewers : List Nat
  reactions : List Reaction
  deletedFor : List DeletedForEntry
  createdAt : Nat
  tenantId : String
deriving DecidableEq, Repr

/-- A `chats` collection document (chatSchema). -/
structure ChatDoc where
  id : Nat
  participants : List Nat
  lastMessage : Option Nat
  tenantId : String
deriving DecidableEq, Repr

/-- A `chatusers` collection document (chatUserSchema): the per-participant
registry of live socket handles. -/
structure ChatUserDoc where
  id : Nat
  socketIds : List String
  active : Bool
deriving DecidableEq, Repr

/-- The contents of one tenant's isolated database. -/
structure TenantStore where
  messages : List Message
  chats : List ChatDoc
  users : List ChatUserDoc
deriving DecidableEq, Repr

/-- Deletion mode of the `deleteMessage` handler. -/
inductive DeleteMode where
  | forMe
  | forEveryone
deriving DecidableEq, Repr

/-- An event emitted to one socket id (`io.to(socketId).emit(...)`). -/
inductive Emission where
  | messageRead (socketId : String) (messageId chatId userId : Nat)
  | unreadCountUpdate (socketId : String) (chatId count : Nat)
  | messageDeleted (socketId : String) (chatId messageId : Nat)
      (lastMessage : Option Message) (mode : DeleteMode)
  | messageSent (socketId : String) (messageId chatId : Nat)
deriving DecidableEq, Repr

/-- `Message.findById` on the tenant database. -/
def findMessage (st : TenantStore) (messageId : Nat) : Option Message :=
  st.messages.find? (fun m => m.id = messageId)

/-- `Chat.findById` on the tenant database. -/
def findChat (st : TenantStore) (chatId : Nat) : Option ChatDoc :=
  st.chats.find? (fun c => c.id = chatId)

/-- `ChatUser.findById` on the tenant database. -/
def findUser (st : TenantStore) (userId : Nat) : Option ChatUserDoc :=
  st.users.find? (fun u => u.id = userId)

/-- `ChatUser.findOne({ socketIds: socket.id })`. -/
def findUserBySocket (st : TenantStore) (socketId : String) : Option ChatUserDoc :=
  st.users.find? (fun u => u.socketIds.contains socketId)

/-- `message.save()`: persist an updated message document (documents are
addressed by `_id`, so the matching document is replaced). -/
def saveMessage (st : TenantStore) (msg : Message) : TenantStore :=
  { st with messages := st.messages.map (fun m => if m.id = msg.id then msg else m) }

/-- The `$or` filter used by `getUnreadCount` and the last-visible-message
queries: `deletedFor` missing, or empty, or with no `$elemMatch` on this
user id.  (The `$exists: false` disjunct cannot fire under the schema
default `[]` and is subsumed by the `$size: 0` disjunct.) -/
def deletedForQueryOr (m : Message) (u : Nat) : Bool :=
  m.deletedFor.isEmpty || !(m.deletedFor.any (fun d => d.userId = u))

/-- The full `countDocuments` filter of `getUnreadCount` in the socket
manager: `chatId`, `senderId: {$ne: userId}`, `viewers: {$ne: userId}`
(no array element equals the id), `tenantId`, and the `$or` above. -/
def unreadQueryPred (t : String) (c u : Nat) (m : Message) : Bool :=
  m.chatId = c && !(m.senderId = u) && !(m.viewers.contains u) &&
    m.tenantId = t && deletedForQueryOr m u

/-- The documents matched by `getUnreadCount`'s query. -/
def unreadMatches (st : TenantStore) (t : String) (c u : Nat) : List Message :=
  st.messages.filter (unreadQueryPred t c u)

/-- `getUnreadCount(chatId, userId, tenantId)` from the socket manager:
`Message.countDocuments` with the filter above. -/
def getUnreadCount (st : TenantStore) (t : String) (c u : Nat) : Nat :=
  (unreadMatches st t c u).length

/-- Spec-side unread predicate, written from the specification's words
(§4.4): `m.chat = c, m.sender ≠ u, u ∉ m.viewers, m not hidden-for u`
(no `deletedFor` entry for `u`).  Used only to compare with the query the
source actually runs. -/
def specUnread (c u : Nat) (m : Message) : Bool :=
  m.chatId = c && !(m.senderId = u) && !(m.viewers.contains u) &&
    m.deletedFor.all (fun d => !(d.userId = u))

/-- Spec-side unread count (specification §4.4 formula). -/
def specUnreadCount (st : TenantStore) (c u : Nat) : Nat :=
  (st.messages.filter (specUnread c u)).length

/-- `emitUnreadCountUpdate(chatId, userId, tenantId)`: look the user up and
push `{chatId, count}` to each of the user's live socket ids. -/
def emitUnreadCountUpdate (st : TenantStore) (t : String) (c u : Nat) : List Emission :=
  match findUser st u with
  | some usr => usr.socketIds.map (fun s => Emission.unreadCountUpdate s c (getUnreadCount st t c u))
  | none => []

/-- The per-participant unread push loop shared by the mark-as-read
handlers: for each participant look up their `ChatUser` record, compute
`getUnreadCount` for them and emit to each of their socket ids. -/
def pushUnreadAll (st : TenantStore) (t : String) (c : Nat) (parts : List Nat) : List Emission :=
  parts.flatMap (fun p =>
    match findUser st p with
    | some usr => usr.socketIds.map (fun s => Emission.unreadCountUpdate s c (getUnreadCount st t c p))
    | none => [])

/-- Spec-side twin of `emitUnreadCountUpdate`, with the pushed value taken
from the specification's formula instead of the source's query. -/
def specEmitUnreadCountUpdate (st : TenantStore) (c u : Nat) : List Emission :=
  match findUser st u with
  | some usr => usr.socketIds.map (fun s => Emission.unreadCountUpdate s c (specUnreadCount st c u))
  | none => []

/-- Spec-side twin of `pushUnreadAll` (specification §4.4 formula). -/
def specPushUnreadAll (st : TenantStore) (c : Nat) (parts : List Nat) : List Emission :=
  parts.flatMap (fun p =>
    match findUser st p with
    | some usr => usr.socketIds.map (fun s => Emission.unreadCountUpdate s c (specUnreadCount st c p))
    | none => [])

theorem not_any_eq_all_not {α : Type} (l : List α) (p : α → Bool) :
    (!(l.any p)) = l.all (fun a => !(p a)) := by
  induction l with
  | nil => rfl
  | cons a l ih => simp [List.any_cons, List.all_cons, Bool.not_or, ih]

theorem deletedForQueryOr_eq_all (m : Message) (u : Nat) :
    deletedForQueryOr m u = m.deletedFor.all (fun d => !(d.userId = u)) := by
  unfold deletedForQueryOr
  rw [not_any_eq_all_not]
  cases m.deletedFor with
  | nil => rfl
  | cons d ds => simp [List.all_cons]

theorem unreadQueryPred_eq_spec (t : String) (c u : Nat) (m : Message)
    (htag : m.tenantId = t) : unreadQueryPred t c u m = specUnread c u m := by
  simp [unreadQueryPred, specUnread, htag, deletedForQueryOr_eq_all]

theorem getUnreadCount_eq_spec (st : TenantStore) (t : String) (c u : Nat)
    (htag : ∀ m ∈ st.messages, m.tenantId = t) :
    getUnreadCount st t c u = specUnreadCount st c u := by
  unfold getUnreadCount unreadMatches specUnreadCount
  congr 1
  exact List.filter_congr (fun m hm => unreadQueryPred_eq_spec t c u m (htag m hm))

/-- C2 — Unread-count correctness: the count the source computes with its
`countDocuments` query, and every count it pushes (the single-user
`emitUnreadCountUpdate` path and the all-participants push loop used by the
mark-as-read handlers), equal the specification's §4.4 formula
`count(m : m.chat = c, m.sender ≠ u, u ∉ m.viewers, m not hidden-for u)`
evaluated on the same store, provided every message of the tenant store
carries that tenant's tag (which is how documents reach a tenant database). -/
theorem unreadCount_matches_spec (st : TenantStore) (t : String) (c u : Nat)
    (parts : List Nat)
    (htag : ∀ m ∈ st.messages, m.tenantId = t) :
    getUnreadCount st t c u = specUnreadCount st c u ∧
    emitUnreadCountUpdate st t c u = specEmitUnreadCountUpdate st c u ∧
    pushUnreadAll st t c parts = specPushUnreadAll st c parts := by
  refine ⟨getUnreadCount_eq_spec st t c u htag, ?_, ?_⟩
  · unfold emitUnreadCountUpdate specEmitUnreadCountUpdate
    rw [getUnreadCount_eq_spec st t c u htag]
  · unfold pushUnreadAll specPushUnreadAll
    apply List.flatMap_congr
    intro p _
    rw [getUnreadCount_eq_spec st t c p htag]

/-- Witness for C2 at a concrete two-message store. -/
theorem unreadCount_matches_spec_witness :
    (∀ m ∈ (TenantStore.mk
        [{ id := 1, chatId := 9, senderId := 4, body := "x", viewers := [],
           reactions := [], deletedFor := [], createdAt := 1, tenantId := "t1" },
         { id := 2, chatId := 9, senderId := 5, body := "y", viewers := [5],
           reactions := [], deletedFor := [⟨5, 3⟩], createdAt := 2, tenantId := "t1" }]
        [] [⟨5, ["s5"], true⟩]).messages, m.tenantId = "t1") ∧
    getUnreadCount (TenantStore.mk
        [{ id := 1, chatId := 9, senderId := 4, body := "x", viewers := [],
           reactions := [], deletedFor := [], createdAt := 1, tenantId := "t1" },
         { id := 2, chatId := 9, senderId := 5, body := "y", viewers := [5],
           reactions := [], deletedFor := [⟨5, 3⟩], createdAt := 2, tenantId := "t1" }]
        [] [⟨5, ["s5"], true⟩]) "t1" 9 5 =
      specUnreadCount (TenantStore.mk
        [{ id := 1, chatId := 9, senderId := 4, body := "x", viewers := [],
           reactions := [], deletedFor := [], createdAt := 1, tenantId := "t1" },
         { id := 2, chatId := 9, senderId := 5, body := "y", viewers := [5],
           reactions := [], deletedFor := [⟨5, 3⟩], createdAt := 2, tenantId := "t1" }]
        [] [⟨5, ["s5"], true⟩]) 9 5 :=
  ⟨by decide, (unreadCount_matches_spec _ "t1" 9 5 [5] (by decide)).1⟩

/-- Worker for `insertionDedup`: keep elements not seen before. -/
def dedupAux (seen : List Nat) : List Nat → List Nat
  | [] => []
  | x :: xs => if x ∈ seen then dedupAux seen xs else x :: dedupAux (x :: seen) xs

/-- JavaScript `new Set(...)` over viewer id strings keeps the first
occurrence of each element in insertion order. -/
def insertionDedup (l : List Nat) : List Nat :=
  dedupAux [] l

theorem mem_dedupAux (l : List Nat) (seen : List Nat) (a : Nat) :
    a ∈ dedupAux seen l ↔ a ∈ l ∧ a ∉ seen := by
  induction l generalizing seen with
  | nil => simp [dedupAux]
  | cons x xs ih =>
    unfold dedupAux
    by_cases hx : x ∈ seen
    · rw [if_pos hx, ih]
      constructor
      · rintro ⟨h1, h2⟩
        exact ⟨List.mem_cons_of_mem x h1, h2⟩
      · rintro ⟨h1, h2⟩
        rcases List.mem_cons.mp h1 with rfl | h1
        · exact absurd hx h2
        · exact ⟨h1, h2⟩
    · rw [if_neg hx]
      simp only [List.mem_cons, ih]
      constructor
      · rintro (rfl | ⟨h1, h2⟩)
        · exact ⟨Or.inl rfl, hx⟩
        · exact ⟨Or.inr h1, fun hs => h2 (Or.inr hs)⟩
      · rintro ⟨rfl | h1, h2⟩
        · exact Or.inl rfl
        · by_cases hax : a = x
          · exact Or.inl hax
          · exact Or.inr ⟨h1, by simp [hax, h2]⟩

theorem mem_insertionDedup (l : List Nat) (a : Nat) :
    a ∈ insertionDedup l ↔ a ∈ l := by
  simp [insertionDedup, mem_dedupAux]

/-- Result of a socket handler: the tenant store afterwards, the events
emitted, and how many `save` round trips to the store were performed. -/
structure HandlerOut where
  store : TenantStore
  emissions : List Emission
  writes : Nat
deriving DecidableEq, Repr

/-- The `messageRead` fan-out loop of the `markMessageAsRead` handler:
for each chat participant, look up their `ChatUser` record and emit
`messageRead` to each of their socket ids. -/
def fanoutMessageRead (st : TenantStore) (parts : List Nat) (messageId chatId userId : Nat) : List Emission :=
  parts.flatMap (fun p =>
    match findUser st p with
    | some usr => usr.socketIds.map (fun s => Emission.messageRead s messageId chatId userId)
    | none => [])

/-- The `markMessageAsRead` socket handler.  Faithful to the source's
order of effects: the `messageRead` fan-out happens BEFORE the
`uniqueViewers.has(...)` check, so it fires on every invocation; only the
viewer addition, the `message.save()` and the unread-count push loop are
gated on the user being a net-new viewer.  `iamFound` models whether the
external identity resolver returned user details (the fan-out is skipped
when it does not). -/
def markMessageAsRead (st : TenantStore) (t : String) (chatId messageId userId : Nat) (iamFound : Bool) : HandlerOut :=
  match findMessage st messageId with
  | none => ⟨st, [], 0⟩
  | some msg =>
    let uniqueViewers := insertionDedup msg.viewers
    let readEmissions :=
      match findChat st chatId with
      | some chat => if iamFound then fanoutMessageRead st chat.participants messageId chatId userId else []
      | none => []
    if userId ∈ uniqueViewers then ⟨st, readEmissions, 0⟩
    else
      let msg' := { msg with viewers := uniqueViewers ++ [userId] }
      let st' := saveMessage st msg'
      let unreadEmissions :=
        match findChat st chatId with
        | some chat => pushUnreadAll st' t chatId chat.participants
        | none => []
      ⟨st', readEmissions ++ unreadEmissions, 1⟩

theorem find?_map_replace (l : List Message) (mid : Nat) (msg msg' : Message)
    (hfind : l.find? (fun m => m.id = mid) = some msg) (hid : msg'.id = mid) :
    (l.map (fun m => if m.id = msg'.id then msg' else m)).find? (fun m => m.id = mid) = some msg' := by
  induction l with
  | nil => simp at hfind
  | cons a l ih =>
    by_cases ha : a.id = mid
    · simp only [List.map_cons, if_pos (ha.trans hid.symm)]
      exact List.find?_cons_of_pos _ (by simp [hid])
    · rw [List.find?_cons_of_neg _ (by simpa using ha)] at hfind
      simp only [List.map_cons, if_neg (fun h : a.id = msg'.id => ha (h.trans hid))]
      rw [List.find?_cons_of_neg _ (by simpa using ha)]
      exact ih hfind

theorem findMessage_saveMessage (st : TenantStore) (mid : Nat) (msg msg' : Message)
    (hfind : findMessage st mid = some msg) (hid : msg'.id = mid) :
    findMessage (saveMessage st msg') mid = some msg' :=
  find?_map_replace st.messages mid msg msg' hfind hid

theorem unread_not_mem_fanout (st : TenantStore) (parts : List Nat)
    (mid cid uid : Nat) (s : String) (c n : Nat) :
    Emission.unreadCountUpdate s c n ∉ fanoutMessageRead st parts mid cid uid := by
  intro hmem
  rw [fanoutMessageRead, List.mem_flatMap] at hmem
  obtain ⟨p, _, hp⟩ := hmem
  rcases hf : findUser st p with _ | usr <;> simp [hf] at hp

/-- C4 (amended) — Mark-as-read: marking the same message read twice by the
same participant yields exactly one viewer entry and exactly one persisted
write (the second invocation writes nothing and changes nothing); the
unread-count recompute/push is gated on the net-new viewer addition, so the
repeat invocation pushes no `unreadCountUpdate`; BUT the `messageRead`
read-receipt fan-out is emitted by the handler on every invocation, before
the viewer-membership check, not only on a net-new addition. -/
theorem markRead_idempotent_amended (st : TenantStore) (t : String)
    (chatId messageId userId : Nat) (iam : Bool) (msg : Message)
    (hmsg : findMessage st messageId = some msg) (hu : userId ∉ msg.viewers) :
    (markMessageAsRead st t chatId messageId userId iam).writes = 1 ∧
    (markMessageAsRead (markMessageAsRead st t chatId messageId userId iam).store
        t chatId messageId userId iam).writes = 0 ∧
    (markMessageAsRead (markMessageAsRead st t chatId messageId userId iam).store
        t chatId messageId userId iam).store =
      (markMessageAsRead st t chatId messageId userId iam).store ∧
    ((findMessage (markMessageAsRead st t chatId messageId userId iam).store messageId).map
        (fun m => m.viewers.count userId)) = some 1 ∧
    (∀ s c n, Emission.unreadCountUpdate s c n ∉
        (markMessageAsRead (markMessageAsRead st t chatId messageId userId iam).store
          t chatId messageId userId iam).emissions) ∧
    (markMessageAsRead (markMessageAsRead st t chatId messageId userId iam).store
        t chatId messageId userId iam).emissions =
      (match findChat (markMessageAsRead st t chatId messageId userId iam).store chatId with
       | some chat => if iam then
           fanoutMessageRead (markMessageAsRead st t chatId messageId userId iam).store
             chat.participants messageId chatId userId
         else []
       | none => []) := by
  have hmid : msg.id = messageId := by
    have h := List.find?_some hmsg
    simpa using h
  have hnotdedup : userId ∉ insertionDedup msg.viewers := by
    rw [mem_insertionDedup]; exact hu
  have hfirst : markMessageAsRead st t chatId messageId userId iam =
      ⟨saveMessage st { msg with viewers := insertionDedup msg.viewers ++ [userId] },
       (match findChat st chatId with
        | some chat => if iam then fanoutMessageRead st chat.participants messageId chatId userId else []
        | none => []) ++
       (match findChat st chatId with
        | some chat => pushUnreadAll
            (saveMessage st { msg with viewers := insertionDedup msg.viewers ++ [userId] })
            t chatId chat.participants
        | none => []),
       1⟩ := by
    unfold markMessageAsRead
    rw [hmsg]
    simp only [if_neg hnotdedup]
  have hfind2 : findMessage
      (saveMessage st { msg with viewers := insertionDedup msg.viewers ++ [userId] }) messageId =
      some { msg with viewers := insertionDedup msg.viewers ++ [userId] } :=
    findMessage_saveMessage st messageId msg _ hmsg hmid
  have hmem2 : userId ∈ insertionDedup ({ msg with viewers := insertionDedup msg.viewers ++ [userId] } : Message).viewers := by
    rw [mem_insertionDedup]
    simp
  have hsecond : markMessageAsRead
      (saveMessage st { msg with viewers := insertionDedup msg.viewers ++ [userId] })
      t chatId messageId userId iam =
      ⟨saveMessage st { msg with viewers := insertionDedup msg.viewers ++ [userId] },
       (match findChat (saveMessage st { msg with viewers := insertionDedup msg.viewers ++ [userId] }) chatId with
        | some chat => if iam then
            fanoutMessageRead (saveMessage st { msg with viewers := insertionDedup msg.viewers ++ [userId] })
              chat.participants messageId chatId userId
          else []
        | none => []),
       0⟩ := by
    unfold markMessageAsRead
    rw [hfind2]
    simp only [if_pos hmem2]
  refine ⟨by rw [hfirst], ?_, ?_, ?_, ?_, ?_⟩
  · rw [hfirst]
    simp only
    rw [hsecond]
  · rw [hfirst]
    simp only
    rw [hsecond]
  · rw [hfirst]
    simp only
    rw [hfind2]
    simp only [Option.map_some']
    congr 1
    rw [List.count_append]
    have h0 : (insertionDedup msg.viewers).count userId = 0 :=
      List.count_eq_zero.mpr hnotdedup
    simp [h0]
  · rw [hfirst]
    simp only
    rw [hsecond]
    simp only
    intro s c n hmem
    cases hch : findChat (saveMessage st { msg with viewers := insertionDedup msg.viewers ++ [userId] }) chatId with
    | none => rw [hch] at hmem; simp at hmem
    | some chat =>
      rw [hch] at hmem
      cases iam with
      | false => simp at hmem
      | true =>
        simp only [if_pos rfl] at hmem
        exact unread_not_mem_fanout _ _ _ _ _ _ _ _ hmem
  · rw [hfirst]
    simp only
    rw [hsecond]

/-- Concrete store for the C4 counterexample: user 7 is already a viewer of
message 1 in chat 1; users 5 and 7 have live sockets. -/
def c4Store : TenantStore :=
  { messages := [{ id := 1, chatId := 1, senderId := 4, body := "m", viewers := [7],
                   reactions := [], deletedFor := [], createdAt := 1, tenantId := "t1" }],
    chats := [{ id := 1, participants := [5, 7], lastMessage := some 1, tenantId := "t1" }],
    users := [⟨5, ["s5"], true⟩, ⟨7, ["s7"], true⟩] }

/-- C4 counterexample — the claim "only a net-new viewer addition triggers
persistence, unread-count recompute, and fan-out of events" is false as
stated: with user 7 already in the viewer set, the handler performs no
write (no net-new addition) yet still fans out a `messageRead` event. -/
theorem markRead_repeat_fanout_counterexample :
    (markMessageAsRead c4Store "t1" 1 1 7 true).writes = 0 ∧
    Emission.messageRead "s5" 1 1 7 ∈ (markMessageAsRead c4Store "t1" 1 1 7 true).emissions := by
  decide

/-- Witness for C4's amended theorem at a concrete input (user 7 not yet a
viewer of message 1). -/
def c4WitnessStore : TenantStore :=
  { messages := [{ id := 1, chatId := 1, senderId := 4, body := "m", viewers := [4],
                   reactions := [], deletedFor := [], createdAt := 1, tenantId := "t1" }],
    chats := [{ id := 1, participants := [4, 7], lastMessage := some 1, tenantId := "t1" }],
    users := [⟨4, ["s4"], true⟩, ⟨7, ["s7"], true⟩] }

theorem markRead_idempotent_amended_witness :
    (markMessageAsRead c4WitnessStore "t1" 1 1 7 true).writes = 1 ∧
    (markMessageAsRead (markMessageAsRead c4WitnessStore "t1" 1 1 7 true).store
        "t1" 1 1 7 true).writes = 0 :=
  have h := markRead_idempotent_amended c4WitnessStore "t1" 1 1 7 true
    { id := 1, chatId := 1, senderId := 4, body := "m", viewers := [4],
      reactions := [], deletedFor := [], createdAt := 1, tenantId := "t1" }
    (by decide) (by decide)
  ⟨h.1, h.2.1⟩

/-- A `findOne` with `.sort({ createdAt: -1 })`: returns a matching document
of maximal `createdAt` (Mongo leaves the order of ties unspecified; the
model keeps the later list element on ties). -/
def latestMessage : List Message → Option Message
  | [] => none
  | a :: l =>
    match latestMessage l with
    | none => some a
    | some m' => if m'.createdAt > a.createdAt then some m' else some a

theorem latestMessage_eq_none (l : List Message) :
    latestMessage l = none ↔ l = [] := by
  cases l with
  | nil => simp [latestMessage]
  | cons a l =>
    unfold latestMessage
    cases latestMessage l <;> simp
    split <;> simp

theorem latestMessage_mem (l : List Message) (m : Message)
    (h : latestMessage l = some m) : m ∈ l := by
  induction l with
  | nil => simp [latestMessage] at h
  | cons a l ih =>
    unfold latestMessage at h
    cases hl : latestMessage l with
    | none =>
      rw [hl] at h
      simp only [Option.some_inj] at h
      simp [← h]
    | some m' =>
      rw [hl] at h
      change (if m'.createdAt > a.createdAt then some m' else some a) = some m at h
      by_cases hc : m'.createdAt > a.createdAt
      · rw [if_pos hc] at h
        simp only [Option.some_inj] at h
        exact List.mem_cons_of_mem a (ih (h ▸ hl))
      · rw [if_neg hc] at h
        simp only [Option.some_inj] at h
        simp [← h]

theorem latestMessage_isMax (l : List Message) :
    ∀ m, latestMessage l = some m → ∀ x ∈ l, x.createdAt ≤ m.createdAt := by
  induction l with
  | nil => simp
  | cons a l ih =>
    intro m h
    unfold latestMessage at h
    cases hl : latestMessage l with
    | none =>
      rw [hl] at h
      simp only [Option.some_inj] at h
      have hnil : l = [] := (latestMessage_eq_none l).mp hl
      subst hnil
      simp [← h]
    | some m' =>
      rw [hl] at h
      change (if m'.createdAt > a.createdAt then some m' else some a) = some m at h
      by_cases hc : m'.createdAt > a.createdAt
      · rw [if_pos hc] at h
        simp only [Option.some_inj] at h
        subst h
        intro x hx
        rcases List.mem_cons.mp hx with rfl | hx
        · exact Nat.le_of_lt hc
        · exact ih _ hl x hx
      · rw [if_neg hc] at h
        simp only [Option.some_inj] at h
        subst h
        intro x hx
        rcases List.mem_cons.mp hx with rfl | hx
        · exact Nat.le_refl _
        · exact Nat.le_trans (ih _ hl x hx) (Nat.le_of_not_lt hc)

/-- Filter of the per-participant last-visible-message query in the
delete-for-everyone branch: `{chatId, tenantId, _id: {$ne: messageId}, $or: [...]}`. -/
def lastVisiblePredExcl (t : String) (c excl p : Nat) (m : Message) : Bool :=
  m.chatId = c && m.tenantId = t && !(m.id = excl) && deletedForQueryOr m p

/-- The delete-for-everyone branch's per-participant
`Message.findOne(...).sort({createdAt: -1})`. -/
def lastVisibleExcl (st : TenantStore) (t : String) (c excl p : Nat) : Option Message :=
  latestMessage (st.messages.filter (lastVisiblePredExcl t c excl p))

/-- Filter of the delete-for-me branch's last-visible query (same, without
the `_id` exclusion). -/
def lastVisiblePred (t : String) (c p : Nat) (m : Message) : Bool :=
  m.chatId = c && m.tenantId = t && deletedForQueryOr m p

/-- The delete-for-me branch's `Message.findOne(...).sort({createdAt: -1})`. -/
def lastVisible (st : TenantStore) (t : String) (c p : Nat) : Option Message :=
  latestMessage (st.messages.filter (lastVisiblePred t c p))

/-- The `deletedFor` upsert of the delete-for-me branch: refresh the
`deletedAt` of the first existing entry for this user, or push a new entry. -/
def upsertDeletedFor (u now : Nat) : List DeletedForEntry → List DeletedForEntry
  | [] => [⟨u, now⟩]
  | d :: ds => if d.userId = u then { d with deletedAt := now } :: ds
               else d :: upsertDeletedFor u now ds

/-- Outcome of the `deleteMessage` controller (HTTP status / body). -/
inductive DeleteResp where
  | notFound
  | notAuthorized
  | noResponse
  | noUserFound
  | success (lastMessage : Option Message)
deriving DecidableEq, Repr

/-- Result of the `deleteMessage` controller. -/
structure DeleteOut where
  store : TenantStore
  emissions : List Emission
  resp : DeleteResp
deriving DecidableEq, Repr

/-- `Message.findByIdAndDelete(messageId)`: physical removal of the
document with that `_id`. -/
def removeMessage (st : TenantStore) (messageId : Nat) : TenantStore :=
  { st with messages := st.messages.filter (fun m => !(m.id = messageId)) }

/-- The delete-for-everyone fan-out loop: per chat participant, recompute
that participant's last-visible message on the post-delete store and emit
`messageDeleted` to each of the participant's socket ids. -/
def delEveryoneEmissions (st1 : TenantStore) (t : String) (chatId messageId : Nat)
    (parts : List Nat) : List Emission :=
  parts.flatMap (fun p =>
    match findUser st1 p with
    | some usr => usr.socketIds.map (fun s =>
        Emission.messageDeleted s chatId messageId
          (lastVisibleExcl st1 t chatId messageId p) DeleteMode.forEveryone)
    | none => [])

/-- The `forEveryone` branch of `deleteMessage`: remove the message, load
the chat (responding nothing when absent, as the source does), run the
fan-out loop; the HTTP body carries the last participant's recomputed
last-visible message (the loop variable's final value). -/
def deleteForEveryoneBranch (st : TenantStore) (t : String) (messageId chatId : Nat) : DeleteOut :=
  match findChat (removeMessage st messageId) chatId with
  | none => ⟨removeMessage st messageId, [], DeleteResp.noResponse⟩
  | some chat =>
    ⟨removeMessage st messageId,
     delEveryoneEmissions (removeMessage st messageId) t chatId messageId chat.participants,
     DeleteResp.success (match chat.participants.getLast? with
       | some p => lastVisibleExcl (removeMessage st messageId) t chatId messageId p
       | none => none)⟩

/-- The upserted message of the `forMe` branch: only `deletedFor` changes. -/
def forMeUpdatedMsg (msg : Message) (userId now : Nat) : Message :=
  { msg with deletedFor := upsertDeletedFor userId now msg.deletedFor }

/-- Store after the `forMe` branch's `message.save()`. -/
def forMeStore1 (st : TenantStore) (msg : Message) (userId now : Nat) : TenantStore :=
  saveMessage st (forMeUpdatedMsg msg userId now)

/-- Store after the `forMe` branch's conditional
`Chat.findByIdAndUpdate(chatId, { lastMessage: lastVisibleMessage._id })`:
executed exactly when the deleter is the sender and a last-visible message
exists (the source checks `message.senderId === userId && lastVisibleMessage`,
with no check that the deleted message was `Chat.lastMessage`). -/
def forMeStore2 (st : TenantStore) (t : String) (chatId userId now : Nat) (msg : Message) : TenantStore :=
  if msg.senderId = userId ∧ (lastVisible (forMeStore1 st msg userId now) t chatId userId).isSome
  then { forMeStore1 st msg userId now with
         chats := (forMeStore1 st msg userId now).chats.map (fun c =>
           if c.id = chatId
           then { c with lastMessage := (lastVisible (forMeStore1 st msg userId now) t chatId userId).map (fun m => m.id) }
           else c) }
  else forMeStore1 st msg userId now

/-- The `forMe` branch of `deleteMessage`. -/
def deleteForMeBranch (st : TenantStore) (t : String) (messageId chatId userId now : Nat)
    (msg : Message) : DeleteOut :=
  match findUser (forMeStore2 st t chatId userId now msg) userId with
  | none => ⟨forMeStore2 st t chatId userId now msg, [], DeleteResp.noUserFound⟩
  | some usr =>
    ⟨forMeStore2 st t chatId userId now msg,
     usr.socketIds.map (fun s =>
       Emission.messageDeleted s chatId messageId
         (lastVisible (forMeStore1 st msg userId now) t chatId userId) DeleteMode.forMe),
     DeleteResp.success (lastVisible (forMeStore1 st msg userId now) t chatId userId)⟩

/-- The `deleteMessage` controller (`forEveryone` / `forMe`), also mirrored
by the near-identical socket handler: `findOne({_id, chatId, tenantId})`
(404 when absent), the sender-only guard for `forEveryone` (403), then the
branch bodies above. -/
def deleteMessage (st : TenantStore) (t : String) (messageId chatId userId now : Nat)
    (mode : DeleteMode) : DeleteOut :=
  match st.messages.find? (fun m => m.id = messageId && m.chatId = chatId && m.tenantId = t) with
  | none => ⟨st, [], DeleteResp.notFound⟩
  | some msg =>
    if mode = DeleteMode.forEveryone ∧ msg.senderId ≠ userId then ⟨st, [], DeleteResp.notAuthorized⟩
    else
      match mode with
      | .forEveryone => deleteForEveryoneBranch st t messageId chatId
      | .forMe => deleteForMeBranch st t messageId chatId userId now msg

theorem deleteMessage_eq_of_found (st : TenantStore) (t : String)
    (messageId chatId userId now : Nat) (mode : DeleteMode) (msg : Message)
    (hmsg : st.messages.find? (fun m => m.id = messageId && m.chatId = chatId && m.tenantId = t) = some msg) :
    deleteMessage st t messageId chatId userId now mode =
      if mode = DeleteMode.forEveryone ∧ msg.senderId ≠ userId
      then ⟨st, [], DeleteResp.notAuthorized⟩
      else match mode with
        | .forEveryone => deleteForEveryoneBranch st t messageId chatId
        | .forMe => deleteForMeBranch st t messageId chatId userId now msg := by
  unfold deleteMessage
  rw [hmsg]

theorem deleteForEveryoneBranch_store (st : TenantStore) (t : String) (messageId chatId : Nat) :
    (deleteForEveryoneBranch st t messageId chatId).store = removeMessage st messageId := by
  unfold deleteForEveryoneBranch
  cases hch : findChat (removeMessage st messageId) chatId <;> rfl

theorem deleteForEveryoneBranch_emissions (st : TenantStore) (t : String)
    (messageId chatId : Nat) (ch : ChatDoc)
    (hch : findChat (removeMessage st messageId) chatId = some ch) :
    (deleteForEveryoneBranch st t messageId chatId).emissions =
      delEveryoneEmissions (removeMessage st messageId) t chatId messageId ch.participants := by
  unfold deleteForEveryoneBranch
  rw [hch]

theorem mem_delEveryoneEmissions (st1 : TenantStore) (t : String)
    (chatId messageId : Nat) (parts : List Nat) (p : Nat) (usr : ChatUserDoc) (s : String)
    (hp : p ∈ parts) (husr : findUser st1 p = some usr) (hs : s ∈ usr.socketIds) :
    Emission.messageDeleted s chatId messageId
      (lastVisibleExcl st1 t chatId messageId p) DeleteMode.forEveryone ∈
      delEveryoneEmissions st1 t chatId messageId parts := by
  unfold delEveryoneEmissions
  rw [List.mem_flatMap]
  refine ⟨p, hp, ?_⟩
  rw [husr]
  exact List.mem_map_of_mem _ hs

/-- C7 — Delete-for-everyone: a `forEveryone` request by anyone other than
the sender is rejected with `NotAuthorized` (HTTP 403) and the store is
untouched; issued by the sender it physically removes exactly the target
message (chats and users untouched), and for every chat participant with a
`ChatUser` record, every one of that participant's socket ids receives a
`messageDeleted` event carrying that participant's own recomputed
last-visible message, which is a maximal-`createdAt` message of the chat
not hidden for that participant (and never the deleted message). -/
theorem deleteForEveryone_correct (st : TenantStore) (t : String)
    (messageId chatId userId now : Nat) (msg : Message)
    (hmsg : st.messages.find? (fun m => m.id = messageId && m.chatId = chatId && m.tenantId = t) = some msg) :
    (msg.senderId ≠ userId →
      deleteMessage st t messageId chatId userId now DeleteMode.forEveryone =
        ⟨st, [], DeleteResp.notAuthorized⟩) ∧
    (msg.senderId = userId →
      (∀ m ∈ (deleteMessage st t messageId chatId userId now DeleteMode.forEveryone).store.messages,
         m.id ≠ messageId) ∧
      (∀ m, m ∈ (deleteMessage st t messageId chatId userId now DeleteMode.forEveryone).store.messages ↔
         m ∈ st.messages ∧ m.id ≠ messageId) ∧
      ((deleteMessage st t messageId chatId userId now DeleteMode.forEveryone).store.chats = st.chats) ∧
      ((deleteMessage st t messageId chatId userId now DeleteMode.forEveryone).store.users = st.users) ∧
      (∀ ch, findChat st chatId = some ch →
        ∀ p ∈ ch.participants, ∀ usr, findUser st p = some usr →
        ∀ s ∈ usr.socketIds,
          Emission.messageDeleted s chatId messageId
            (lastVisibleExcl (removeMessage st messageId) t chatId messageId p) DeleteMode.forEveryone
            ∈ (deleteMessage st t messageId chatId userId now DeleteMode.forEveryone).emissions) ∧
      (∀ p lm, lastVisibleExcl (removeMessage st messageId) t chatId messageId p = some lm →
        lm.chatId = chatId ∧ lm.id ≠ messageId ∧
        lm.deletedFor.all (fun d => !(d.userId = p)) = true ∧
        (∀ m2 ∈ (deleteMessage st t messageId chatId userId now DeleteMode.forEveryone).store.messages,
          m2.chatId = chatId → m2.tenantId = t →
          m2.deletedFor.all (fun d => !(d.userId = p)) = true →
          m2.createdAt ≤ lm.createdAt))) := by
  constructor
  · intro hns
    rw [deleteMessage_eq_of_found st t messageId chatId userId now DeleteMode.forEveryone msg hmsg,
      if_pos ⟨rfl, hns⟩]
  · intro hs
    have hD : deleteMessage st t messageId chatId userId now DeleteMode.forEveryone =
        deleteForEveryoneBranch st t messageId chatId := by
      rw [deleteMessage_eq_of_found st t messageId chatId userId now DeleteMode.forEveryone msg hmsg,
        if_neg (fun h => h.2 hs)]
    have hstore : (deleteMessage st t messageId chatId userId now DeleteMode.forEveryone).store =
        removeMessage st messageId := by
      rw [hD, deleteForEveryoneBranch_store]
    have hmemiff : ∀ m, m ∈ (removeMessage st messageId).messages ↔
        m ∈ st.messages ∧ m.id ≠ messageId := by
      intro m
      unfold removeMessage
      simp [List.mem_filter]
    refine ⟨?_, ?_, ?_, ?_, ?_, ?_⟩
    · intro m hm
      rw [hstore] at hm
      exact ((hmemiff m).mp hm).2
    · intro m
      rw [hstore]
      exact hmemiff m
    · rw [hstore]; rfl
    · rw [hstore]; rfl
    · intro ch hch p hp usr husr s hsock
      have hch1 : findChat (removeMessage st messageId) chatId = some ch := hch
      have husr1 : findUser (removeMessage st messageId) p = some usr := husr
      rw [hD, deleteForEveryoneBranch_emissions st t messageId chatId ch hch1]
      exact mem_delEveryoneEmissions _ t chatId messageId ch.participants p usr s hp husr1 hsock
    · intro p lm hlm
      have hmem := latestMessage_mem _ _ hlm
      rw [List.mem_filter] at hmem
      obtain ⟨hmemSt1, hpred⟩ := hmem
      unfold lastVisiblePredExcl at hpred
      simp only [Bool.and_eq_true, decide_eq_true_eq, Bool.not_eq_true'] at hpred
      obtain ⟨⟨⟨hcid, _⟩, hid⟩, hqor⟩ := hpred
      have hall : lm.deletedFor.all (fun d => !(d.userId = p)) = true := by
        rw [← deletedForQueryOr_eq_all]; exact hqor
      refine ⟨hcid, by simpa using hid, hall, ?_⟩
      intro m2 hm2 hcid2 htag2 hall2
      rw [hstore] at hm2
      have hid2 : m2.id ≠ messageId := ((hmemiff m2).mp hm2).2
      have hm2filter : m2 ∈ (removeMessage st messageId).messages.filter
          (lastVisiblePredExcl t chatId messageId p) := by
        rw [List.mem_filter]
        refine ⟨hm2, ?_⟩
        unfold lastVisiblePredExcl
        rw [deletedForQueryOr_eq_all]
        simp [hcid2, htag2, hid2, hall2]
      exact latestMessage_isMax _ lm hlm m2 hm2filter

theorem upsertDeletedFor_frame (u now q : Nat) (hq : q ≠ u) (l : List DeletedForEntry) :
    (upsertDeletedFor u now l).filter (fun d => d.userId = q) =
      l.filter (fun d => d.userId = q) := by
  induction l with
  | nil => simp [upsertDeletedFor, Ne.symm hq]
  | cons d ds ih =>
    unfold upsertDeletedFor
    by_cases hd : d.userId = u
    · rw [if_pos hd]
      simp [List.filter_cons, hd, Ne.symm hq]
    · rw [if_neg hd]
      by_cases hdq : d.userId = q
      · simp [List.filter_cons, hdq, ih]
      · simp [List.filter_cons, hdq, ih]

theorem upsert_not_all (u now : Nat) (l : List DeletedForEntry) :
    ((upsertDeletedFor u now l).all (fun d => !(d.userId = u))) = false := by
  induction l with
  | nil => simp [upsertDeletedFor]
  | cons d ds ih =>
    unfold upsertDeletedFor
    by_cases hd : d.userId = u
    · rw [if_pos hd]
      simp [List.all_cons, hd]
    · rw [if_neg hd]
      simp [List.all_cons, ih]

theorem deletedForQueryOr_upsert_self (msg : Message) (u now : Nat) :
    deletedForQueryOr (forMeUpdatedMsg msg u now) u = false := by
  rw [deletedForQueryOr_eq_all]
  exact upsert_not_all u now msg.deletedFor

theorem deleteForMeBranch_store (st : TenantStore) (t : String)
    (messageId chatId userId now : Nat) (msg : Message) :
    (deleteForMeBranch st t messageId chatId userId now msg).store =
      forMeStore2 st t chatId userId now msg := by
  unfold deleteForMeBranch
  cases hfu : findUser (forMeStore2 st t chatId userId now msg) userId <;> rfl

theorem forMeStore2_messages (st : TenantStore) (t : String)
    (chatId userId now : Nat) (msg : Message) :
    (forMeStore2 st t chatId userId now msg).messages =
      (forMeStore1 st msg userId now).messages := by
  unfold forMeStore2
  split <;> rfl

theorem forMeStore2_users (st : TenantStore) (t : String)
    (chatId userId now : Nat) (msg : Message) :
    (forMeStore2 st t chatId userId now msg).users = st.users := by
  unfold forMeStore2
  split <;> rfl

theorem forMeStore1_messages_eq (st : TenantStore) (messageId userId now : Nat)
    (msg : Message) (hmid : msg.id = messageId) :
    (forMeStore1 st msg userId now).messages =
      st.messages.map (fun m => if m.id = messageId then forMeUpdatedMsg msg userId now else m) := by
  unfold forMeStore1 saveMessage
  simp only
  have hfun : (fun m => if m.id = (forMeUpdatedMsg msg userId now).id
        then forMeUpdatedMsg msg userId now else m) =
      (fun m : Message => if m.id = messageId then forMeUpdatedMsg msg userId now else m) := by
    funext m
    rw [show (forMeUpdatedMsg msg userId now).id = messageId from hmid]
  rw [hfun]

theorem forMeStore2_chats_of_notSender (st : TenantStore) (t : String)
    (chatId userId now : Nat) (msg : Message) (hns : msg.senderId ≠ userId) :
    (forMeStore2 st t chatId userId now msg).chats = st.chats := by
  unfold forMeStore2
  rw [if_neg (fun h => hns h.1)]
  rfl

theorem forMeStore2_chats_of_none (st : TenantStore) (t : String)
    (chatId userId now : Nat) (msg : Message)
    (hlv : lastVisible (forMeStore1 st msg userId now) t chatId userId = none) :
    (forMeStore2 st t chatId userId now msg).chats = st.chats := by
  unfold forMeStore2
  rw [if_neg (fun h => by simp [hlv] at h)]
  rfl

theorem forMeStore2_chats_of_some (st : TenantStore) (t : String)
    (chatId userId now : Nat) (msg : Message) (lm : Message)
    (hs : msg.senderId = userId)
    (hlv : lastVisible (forMeStore1 st msg userId now) t chatId userId = some lm) :
    (forMeStore2 st t chatId userId now msg).chats =
      st.chats.map (fun c => if c.id = chatId then { c with lastMessage := some lm.id } else c) := by
  unfold forMeStore2
  rw [if_pos ⟨hs, by rw [hlv]; rfl⟩]
  show st.chats.map (fun c => if c.id = chatId
      then { c with lastMessage := (lastVisible (forMeStore1 st msg userId now) t chatId userId).map (fun m => m.id) }
      else c) = _
  rw [hlv]
  rfl

theorem lastVisible_forMe_ne (st : TenantStore) (t : String)
    (chatId userId now messageId : Nat) (msg lm : Message) (hmid : msg.id = messageId)
    (hlm : lastVisible (forMeStore1 st msg userId now) t chatId userId = some lm) :
    lm.id ≠ messageId := by
  intro heq
  have hmem := latestMessage_mem _ _ hlm
  rw [List.mem_filter] at hmem
  obtain ⟨hmemSt1, hpred⟩ := hmem
  unfold forMeStore1 saveMessage at hmemSt1
  simp only [List.mem_map] at hmemSt1
  obtain ⟨orig, _, heqm⟩ := hmemSt1
  by_cases ho : orig.id = (forMeUpdatedMsg msg userId now).id
  · rw [if_pos ho] at heqm
    have hfalse : deletedForQueryOr lm userId = false :=
      heqm ▸ deletedForQueryOr_upsert_self msg userId now
    unfold lastVisiblePred at hpred
    simp [hfalse] at hpred
  · rw [if_neg ho] at heqm
    apply ho
    show orig.id = msg.id
    rw [heqm]
    exact heq.trans hmid.symm

/-- C8 (amended) — Delete-for-me: the branch upserts only the deleting
participant's `deletedFor` cursor on the target message (every other field
of the message, every other message, all cursors of other participants and
the user registry are unchanged); and the chat's `lastMessage` pointer is
rewritten to the deleter's most recent still-visible message whenever the
deleter is the sender and such a message exists — the source never checks
that the deleted message was `Chat.lastMessage`, so in particular when the
sender deletes their own latest message `forMe` the pointer CHANGES to the
previous visible message (the new pointer is never the deleted message);
the pointer stays unchanged only when the deleter is not the sender or no
message remains visible to them. -/
theorem deleteForMe_amended (st : TenantStore) (t : String)
    (messageId chatId userId now : Nat) (msg : Message)
    (hmsg : st.messages.find? (fun m => m.id = messageId && m.chatId = chatId && m.tenantId = t) = some msg) :
    ((deleteMessage st t messageId chatId userId now DeleteMode.forMe).store.messages =
        st.messages.map (fun m => if m.id = messageId then forMeUpdatedMsg msg userId now else m)) ∧
    ((deleteMessage st t messageId chatId userId now DeleteMode.forMe).store.users = st.users) ∧
    (∀ q, q ≠ userId →
        (forMeUpdatedMsg msg userId now).deletedFor.filter (fun d => d.userId = q) =
          msg.deletedFor.filter (fun d => d.userId = q)) ∧
    ((forMeUpdatedMsg msg userId now).viewers = msg.viewers ∧
     (forMeUpdatedMsg msg userId now).body = msg.body ∧
     (forMeUpdatedMsg msg userId now).senderId = msg.senderId) ∧
    (msg.senderId ≠ userId →
        (deleteMessage st t messageId chatId userId now DeleteMode.forMe).store.chats = st.chats) ∧
    (msg.senderId = userId →
      (lastVisible (forMeStore1 st msg userId now) t chatId userId = none →
        (deleteMessage st t messageId chatId userId now DeleteMode.forMe).store.chats = st.chats) ∧
      (∀ lm, lastVisible (forMeStore1 st msg userId now) t chatId userId = some lm →
        (deleteMessage st t messageId chatId userId now DeleteMode.forMe).store.chats =
          st.chats.map (fun c => if c.id = chatId then { c with lastMessage := some lm.id } else c) ∧
        lm.id ≠ messageId ∧ lm.chatId = chatId ∧
        lm.deletedFor.all (fun d => !(d.userId = userId)) = true ∧
        (∀ m2 ∈ (deleteMessage st t messageId chatId userId now DeleteMode.forMe).store.messages,
          m2.chatId = chatId → m2.tenantId = t →
          m2.deletedFor.all (fun d => !(d.userId = userId)) = true →
          m2.createdAt ≤ lm.createdAt))) := by
  have hmid : msg.id = messageId := by
    have h := List.find?_some hmsg
    simp only [Bool.and_eq_true, decide_eq_true_eq] at h
    exact h.1.1
  have hD : deleteMessage st t messageId chatId userId now DeleteMode.forMe =
      deleteForMeBranch st t messageId chatId userId now msg := by
    rw [deleteMessage_eq_of_found st t messageId chatId userId now DeleteMode.forMe msg hmsg,
      if_neg (fun h => DeleteMode.noConfusion h.1)]
  have hstore : (deleteMessage st t messageId chatId userId now DeleteMode.forMe).store =
      forMeStore2 st t chatId userId now msg := by
    rw [hD, deleteForMeBranch_store]
  have hmsgs : (deleteMessage st t messageId chatId userId now DeleteMode.forMe).store.messages =
      st.messages.map (fun m => if m.id = messageId then forMeUpdatedMsg msg userId now else m) := by
    rw [hstore, forMeStore2_messages, forMeStore1_messages_eq st messageId userId now msg hmid]
  refine ⟨hmsgs, ?_, ?_, ⟨rfl, rfl, rfl⟩, ?_, ?_⟩
  · rw [hstore]
    exact forMeStore2_users st t chatId userId now msg
  · intro q hq
    exact upsertDeletedFor_frame userId now q hq msg.deletedFor
  · intro hns
    rw [hstore]
    exact forMeStore2_chats_of_notSender st t chatId userId now msg hns
  · intro hs
    constructor
    · intro hlv
      rw [hstore]
      exact forMeStore2_chats_of_none st t chatId userId now msg hlv
    · intro lm hlm
      have hmem := latestMessage_mem _ _ hlm
      rw [List.mem_filter] at hmem
      obtain ⟨_, hpred⟩ := hmem
      unfold lastVisiblePred at hpred
      simp only [Bool.and_eq_true, decide_eq_true_eq] at hpred
      obtain ⟨⟨hcid, _⟩, hqor⟩ := hpred
      have hall : lm.deletedFor.all (fun d => !(d.userId = userId)) = true := by
        rw [← deletedForQueryOr_eq_all]; exact hqor
      refine ⟨?_, lastVisible_forMe_ne st t chatId userId now messageId msg lm hmid hlm,
        hcid, hall, ?_⟩
      · rw [hstore]
        exact forMeStore2_chats_of_some st t chatId userId now msg lm hs hlm
      · intro m2 hm2 hcid2 htag2 hall2
        rw [hstore, forMeStore2_messages] at hm2
        have hm2filter : m2 ∈ (forMeStore1 st msg userId now).messages.filter
            (lastVisiblePred t chatId userId) := by
          rw [List.mem_filter]
          refine ⟨hm2, ?_⟩
          unfold lastVisiblePred
          rw [deletedForQueryOr_eq_all]
          simp [hcid2, htag2, hall2]
        exact latestMessage_isMax _ lm hlm m2 hm2filter

/-- Concrete store shared by the delete-message examples: chat 1 between
users 9 and 5, messages 1 (created 1) and 2 (created 2), both sent by 9,
`Chat.lastMessage = 2`. -/
def delStore : TenantStore :=
  { messages := [{ id := 1, chatId := 1, senderId := 9, body := "a", viewers := [],
                   reactions := [], deletedFor := [], createdAt := 1, tenantId := "t1" },
                 { id := 2, chatId := 1, senderId := 9, body := "b", viewers := [],
                   reactions := [], deletedFor := [], createdAt := 2, tenantId := "t1" }],
    chats := [{ id := 1, participants := [9, 5], lastMessage := some 2, tenantId := "t1" }],
    users := [⟨9, ["s9"], true⟩, ⟨5, ["s5"], true⟩] }

/-- The stored document for message 2 of `delStore`. -/
def delMsg2 : Message :=
  { id := 2, chatId := 1, senderId := 9, body := "b", viewers := [],
    reactions := [], deletedFor := [], createdAt := 2, tenantId := "t1" }

/-- Witness for C7: user 5 (not the sender) asking to delete message 2
for everyone is rejected with `NotAuthorized` and the store is untouched. -/
theorem deleteForEveryone_correct_witness :
    (delStore.messages.find? (fun m => m.id = 2 && m.chatId = 1 && m.tenantId = "t1") = some delMsg2) ∧
    deleteMessage delStore "t1" 2 1 5 99 DeleteMode.forEveryone =
      ⟨delStore, [], DeleteResp.notAuthorized⟩ :=
  ⟨by decide, (deleteForEveryone_correct delStore "t1" 2 1 5 99 delMsg2 (by decide)).1 (by decide)⟩

/-- C8 counterexample — Scenario C is false on the code: sender 9 deletes
their own latest message (id 2, the current `Chat.lastMessage`) with mode
`forMe`, and `Chat.lastMessage` CHANGES from 2 to 1 (the previous visible
message): the source runs `Chat.findByIdAndUpdate` whenever the deleter is
the sender and some visible message exists. -/
theorem deleteForMe_lastMessage_counterexample :
    ((findChat delStore 1).map (fun c => c.lastMessage) = some (some 2)) ∧
    ((findChat (deleteMessage delStore "t1" 2 1 9 50 DeleteMode.forMe).store 1).map
        (fun c => c.lastMessage) = some (some 1)) := by
  decide

/-- Witness for C8's amended theorem at the same concrete input. -/
theorem deleteForMe_amended_witness :
    (delStore.messages.find? (fun m => m.id = 2 && m.chatId = 1 && m.tenantId = "t1") = some delMsg2) ∧
    (deleteMessage delStore "t1" 2 1 9 50 DeleteMode.forMe).store.messages =
      delStore.messages.map (fun m => if m.id = 2 then forMeUpdatedMsg delMsg2 9 50 else m) :=
  ⟨by decide, (deleteForMe_amended delStore "t1" 2 1 9 50 delMsg2 (by decide)).1⟩

/-- Descending-`createdAt` order used by `.sort({ createdAt: -1 })`. -/
def msgGE (a b : Message) : Prop := b.createdAt ≤ a.createdAt

instance : DecidableRel msgGE := fun a b => Nat.decLe b.createdAt a.createdAt

instance : IsTotal Message msgGE := ⟨fun a b => Nat.le_total b.createdAt a.createdAt⟩

instance : IsTrans Message msgGE := ⟨fun _ _ _ hab hbc => Nat.le_trans hbc hab⟩

/-- The `messageHistory` payload emitted by `getMessageHistory`. -/
structure HistoryOut where
  messages : List Message
  hasMore : Bool
  total : Nat
  currentPage : Nat
deriving DecidableEq, Repr

/-- The `getMessageHistory` socket handler.  The source computes
`limit = 10 * page` and `skip = (page - 1) * limit` but only ever passes
`limit` to the query (`skip` is used solely in the `hasMore` formula):
`totalMessages = countDocuments({ chatId })` (no tenant filter),
`find({ chatId, tenantId }).sort({ createdAt: -1 }).limit(limit)`, then the
payload reverses the fetched page and reports
`hasMore = totalMessages > skip + limit`. -/
def getMessageHistory (st : TenantStore) (t : String) (chatId page : Nat) : HistoryOut :=
  { messages := (((st.messages.filter (fun m => m.chatId = chatId && m.tenantId = t)).insertionSort
        msgGE).take (10 * page)).reverse,
    hasMore := decide ((page - 1) * (10 * page) + 10 * page <
      (st.messages.filter (fun m => m.chatId = chatId)).length),
    total := (st.messages.filter (fun m => m.chatId = chatId)).length,
    currentPage := page }

theorem pairwise_take_drop {α : Type} {R : α → α → Prop} :
    ∀ (l : List α) (n : Nat), l.Pairwise R →
      ∀ a ∈ l.take n, ∀ b ∈ l.drop n, R a b := by
  intro l
  induction l with
  | nil =>
    intro n _ a ha
    simp at ha
  | cons x xs ih =>
    intro n hp a ha b hb
    cases n with
    | zero => simp at ha
    | succ n =>
      rw [List.take_succ_cons] at ha
      rw [List.drop_succ_cons] at hb
      rcases List.mem_cons.mp ha with rfl | ha
      · exact (List.pairwise_cons.mp hp).1 b (List.mem_of_mem_drop hb)
      · exact ih n (List.pairwise_cons.mp hp).2 a ha b hb

theorem mem_take_mono {α : Type} {l : List α} {m n : Nat} {a : α}
    (ha : a ∈ l.take m) (hmn : m ≤ n) : a ∈ l.take n := by
  have h : l.take m = (l.take n).take m := by
    rw [List.take_take, Nat.min_eq_left hmn]
  rw [h] at ha
  exact List.take_subset m (l.take n) ha

/-- C10 — `getMessageHistory` pagination overlaps instead of partitioning:
the query is limited to `10 * page` documents and the computed skip
`(page - 1) * 10 * page` is never applied, so the emitted page always holds
the newest `min(total, 10*page)` messages of the chat in ascending creation
order, every lower page is contained in every higher page, and `hasMore`
is exactly `total > (page - 1) * 10 * page + 10 * page`. -/
theorem getMessageHistory_pages_overlap (st : TenantStore) (t : String)
    (chatId page page2 : Nat) (hp : 1 ≤ page)
    (htag : ∀ m ∈ st.messages, m.chatId = chatId → m.tenantId = t) :
    ((getMessageHistory st t chatId page).messages.length =
      min (getMessageHistory st t chatId page).total (10 * page)) ∧
    (∀ m ∈ (getMessageHistory st t chatId page).messages, m.chatId = chatId) ∧
    ((getMessageHistory st t chatId page).messages.Sorted (fun a b => a.createdAt ≤ b.createdAt)) ∧
    (∀ x ∈ (getMessageHistory st t chatId page).messages,
      ∀ y ∈ st.messages, y.chatId = chatId →
        y ∉ (getMessageHistory st t chatId page).messages → y.createdAt ≤ x.createdAt) ∧
    (page ≤ page2 →
      ∀ m ∈ (getMessageHistory st t chatId page).messages,
        m ∈ (getMessageHistory st t chatId page2).messages) ∧
    ((getMessageHistory st t chatId page).hasMore =
      decide ((page - 1) * (10 * page) + 10 * page < (getMessageHistory st t chatId page).total)) := by
  have hfilt : st.messages.filter (fun m => m.chatId = chatId && m.tenantId = t) =
      st.messages.filter (fun m => m.chatId = chatId) := by
    apply List.filter_congr
    intro m hm
    by_cases hc : m.chatId = chatId
    · simp [hc, htag m hm hc]
    · simp [hc]
  have hperm := List.perm_insertionSort msgGE
    (st.messages.filter (fun m => m.chatId = chatId && m.tenantId = t))
  have hpw : ((st.messages.filter (fun m => m.chatId = chatId && m.tenantId = t)).insertionSort
      msgGE).Pairwise msgGE :=
    List.sorted_insertionSort msgGE _
  refine ⟨?_, ?_, ?_, ?_, ?_, ?_⟩
  · simp only [getMessageHistory]
    rw [List.length_reverse, List.length_take, hperm.length_eq, hfilt, Nat.min_comm]
  · intro m hm
    simp only [getMessageHistory] at hm
    rw [List.mem_reverse] at hm
    have hmem := hperm.mem_iff.mp (List.take_subset _ _ hm)
    rw [List.mem_filter] at hmem
    have := hmem.2
    simp only [Bool.and_eq_true, decide_eq_true_eq] at this
    exact this.1
  · simp only [getMessageHistory]
    have htake : (((st.messages.filter (fun m => m.chatId = chatId && m.tenantId = t)).insertionSort
        msgGE).take (10 * page)).Pairwise msgGE :=
      hpw.sublist (List.take_sublist _ _)
    exact List.pairwise_reverse.mpr htake
  · intro x hx y hy hyc hyn
    simp only [getMessageHistory] at hx hyn
    rw [List.mem_reverse] at hx
    rw [List.mem_reverse] at hyn
    have hyfilt : y ∈ st.messages.filter (fun m => m.chatId = chatId && m.tenantId = t) := by
      rw [List.mem_filter]
      exact ⟨hy, by simp [hyc, htag y hy hyc]⟩
    have hysorted := hperm.mem_iff.mpr hyfilt
    have hydrop : y ∈ ((st.messages.filter (fun m => m.chatId = chatId && m.tenantId = t)).insertionSort
        msgGE).drop (10 * page) := by
      rw [← List.take_append_drop (10 * page)
        ((st.messages.filter (fun m => m.chatId = chatId && m.tenantId = t)).insertionSort msgGE)]
        at hysorted
      rcases List.mem_append.mp hysorted with h | h
      · exact absurd h hyn
      · exact h
    exact pairwise_take_drop _ (10 * page) hpw x hx y hydrop
  · intro hle m hm
    simp only [getMessageHistory] at hm ⊢
    rw [List.mem_reverse] at hm ⊢
    exact mem_take_mono hm (Nat.mul_le_mul_left 10 hle)
  · rfl

/-- Concrete three-message chat for the C10 witness. -/
def historyStore : TenantStore :=
  { messages := [{ id := 1, chatId := 1, senderId := 4, body := "a", viewers := [],
                   reactions := [], deletedFor := [], createdAt := 3, tenantId := "t1" },
                 { id := 2, chatId := 1, senderId := 5, body := "b", viewers := [],
                   reactions := [], deletedFor := [], createdAt := 1, tenantId := "t1" },
                 { id := 3, chatId := 1, senderId := 4, body := "c", viewers := [],
                   reactions := [], deletedFor := [], createdAt := 2, tenantId := "t1" }],
    chats := [{ id := 1, participants := [4, 5], lastMessage := some 1, tenantId := "t1" }],
    users := [⟨4, ["s4"], true⟩, ⟨5, ["s5"], true⟩] }

/-- Witness for C10 at a concrete store and page 1. -/
theorem getMessageHistory_pages_overlap_witness :
    (1 ≤ 1 ∧ ∀ m ∈ historyStore.messages, m.chatId = 1 → m.tenantId = "t1") ∧
    (getMessageHistory historyStore "t1" 1 1).messages.length =
      min (getMessageHistory historyStore "t1" 1 1).total (10 * 1) :=
  ⟨⟨by decide, by decide⟩,
   (getMessageHistory_pages_overlap historyStore "t1" 1 1 2 (by decide) (by decide)).1⟩

/-- The whole Mongo cluster: `getTenantModels(tenantId)` binds the models to
the dedicated database `tenant-<tenantId>` (config/db `connectToTenantDB`),
so a tenant-scoped operation only ever reads and writes the component at
its own tenant key. -/
def MTStore := String → TenantStore

/-- Writing back the tenant's database after a tenant-scoped operation:
only the component at that tenant key changes. -/
def applyAt (g : MTStore) (t : String) (st : TenantStore) : MTStore :=
  fun t2 => if t2 = t then st else g t2

/-- `getUnreadCount` resolved through `getTenantModels(t)`: the query runs
on tenant `t`'s database and additionally filters on `tenantId: t`. -/
def mtGetUnreadCount (g : MTStore) (t : String) (c u : Nat) : Nat :=
  getUnreadCount (g t) t c u

/-- The `markMessageAsRead` handler resolved through `getTenantModels(t)`:
reads and saves only within tenant `t`'s database. -/
def mtMarkMessageAsRead (g : MTStore) (t : String) (chatId messageId userId : Nat)
    (iamFound : Bool) : MTStore × List Emission :=
  (applyAt g t (markMessageAsRead (g t) t chatId messageId userId iamFound).store,
   (markMessageAsRead (g t) t chatId messageId userId iamFound).emissions)

/-- `Chat.findById` resolved through `getTenantModels(t)`. -/
def mtFindChat (g : MTStore) (t : String) (c : Nat) : Option ChatDoc :=
  findChat (g t) c

/-- `Message.findById` resolved through `getTenantModels(t)`. -/
def mtFindMessage (g : MTStore) (t : String) (mid : Nat) : Option Message :=
  findMessage (g t) mid

/-- C1 — Tenant isolation: for every tenant-scoped operation resolved for
T1 (the unread-count query, the message read/write of `markMessageAsRead`,
chat and message lookup) and every tenant T2 ≠ T1, the operation leaves
T2's database untouched and never returns a T2-tagged document, provided
T1's database only holds T1-tagged documents (which is how documents enter
a tenant database: every create through `getTenantModels(T1)` tags
`tenantId: T1`). -/
theorem tenant_isolation (g : MTStore) (T1 T2 : String)
    (chatId messageId userId : Nat) (iam : Bool)
    (hne : T2 ≠ T1)
    (hmsgTag : ∀ m ∈ (g T1).messages, m.tenantId = T1)
    (hchatTag : ∀ ch ∈ (g T1).chats, ch.tenantId = T1) :
    ((mtMarkMessageAsRead g T1 chatId messageId userId iam).1 T2 = g T2) ∧
    (∀ ch, mtFindChat g T1 chatId = some ch → ch.tenantId ≠ T2) ∧
    (∀ m, mtFindMessage g T1 messageId = some m → m.tenantId ≠ T2) ∧
    (∀ m ∈ unreadMatches (g T1) T1 chatId userId, m.tenantId ≠ T2) := by
  refine ⟨?_, ?_, ?_, ?_⟩
  · unfold mtMarkMessageAsRead applyAt
    simp only
    rw [if_neg hne]
  · intro ch hch
    have hmem := List.mem_of_find?_eq_some hch
    rw [hchatTag ch hmem]
    exact Ne.symm hne
  · intro m hm
    have hmem := List.mem_of_find?_eq_some hm
    rw [hmsgTag m hmem]
    exact Ne.symm hne
  · intro m hm
    unfold unreadMatches at hm
    rw [List.mem_filter] at hm
    have hpred := hm.2
    unfold unreadQueryPred at hpred
    simp only [Bool.and_eq_true, decide_eq_true_eq] at hpred
    rw [hpred.1.2]
    exact Ne.symm hne

/-- Two-tenant cluster for the C1 witness: `t1` holds `delStore`, `t2`
holds a one-message store of its own, everything else is empty. -/
def twoTenantStore : MTStore :=
  fun t =>
    if t = "t1" then delStore
    else if t = "t2" then
      { messages := [{ id := 7, chatId := 7, senderId := 1, body := "z", viewers := [],
                       reactions := [], deletedFor := [], createdAt := 1, tenantId := "t2" }],
        chats := [], users := [] }
    else ⟨[], [], []⟩

/-- Witness for C1 on the concrete two-tenant cluster. -/
theorem tenant_isolation_witness :
    ("t2" ≠ "t1" ∧ (∀ m ∈ (twoTenantStore "t1").messages, m.tenantId = "t1") ∧
      (∀ ch ∈ (twoTenantStore "t1").chats, ch.tenantId = "t1")) ∧
    ((mtMarkMessageAsRead twoTenantStore "t1" 1 2 5 true).1 "t2" = twoTenantStore "t2") :=
  ⟨⟨by decide, by decide, by decide⟩,
   (tenant_isolation twoTenantStore "t1" "t2" 1 2 5 true (by decide) (by decide) (by decide)).1⟩

/-- The `directMessage` socket handler.  Order of effects in the source:
look the sender up by socket id, load the chat with
`Chat.findById(chatId).populate(...).lean()`, join the sender's socket to
the chat room if needed, `Message.create` the new message (persisted at
once, with an empty viewer set).  The next statement is
`await chat.save()` — but `chat` was fetched with `.lean()` and is a plain
JavaScript object with no `save` method, so this throws a TypeError which
the handler's catch swallows.  Everything after that line — the
`messageSent` fan-out, the per-recipient room-presence check, the
viewer-set auto-read, the `messageRead` emissions, the
`emitUnreadCountUpdate` calls and the final `message.save()` — never runs.
The result is the store with the new message appended, the sender's room
join, and no emissions at all.  `rooms` is the socket.io room-membership
relation (socketId, chatId). -/
def directMessage (st : TenantStore) (t : String) (rooms : List (String × Nat))
    (senderSocket : String) (chatId : Nat) (body : String) (newId now : Nat) :
    TenantStore × List (String × Nat) × List Emission :=
  match findUserBySocket st senderSocket, findChat st chatId with
  | some user, some _chat =>
    let rooms2 := if (senderSocket, chatId) ∈ rooms then rooms else rooms ++ [(senderSocket, chatId)]
    let msg : Message :=
      { id := newId, chatId := chatId, senderId := user.id, body := body,
        viewers := [], reactions := [], deletedFor := [], createdAt := now, tenantId := t }
    ({ st with messages := st.messages ++ [msg] }, rooms2, [])
  | _, _ => (st, rooms, [])

/-- Concrete send for C5: P1 (user 1, socket s1) sends to chat 10; P2
(user 2) is online with socket s2 which is subscribed to chat 10's room. -/
def sendStore : TenantStore :=
  { messages := [],
    chats := [{ id := 10, participants := [1, 2], lastMessage := none, tenantId := "t1" }],
    users := [⟨1, ["s1"], true⟩, ⟨2, ["s2"], true⟩] }

/-- C5 evaluation at the failing input — P2 is online and subscribed to the
chat room, yet after the send: the message is persisted with an EMPTY
viewer set (P2 was never added), and NO event of any kind is emitted (no
`messageRead`, no `unreadCountUpdate`, not even `messageSent`), because the
handler throws at `chat.save()` on the `.lean()` object right after
creating the message.  The claim's promised auto-read never happens. -/
theorem directMessage_crash_eval :
    (directMessage sendStore "t1" [("s1", 10), ("s2", 10)] "s1" 10 "hello" 99 5).2.2 = [] ∧
    (findMessage (directMessage sendStore "t1" [("s1", 10), ("s2", 10)] "s1" 10 "hello" 99 5).1 99).map
      (fun m => m.viewers) = some [] ∧
    getUnreadCount (directMessage sendStore "t1" [("s1", 10), ("s2", 10)] "s1" 10 "hello" 99 5).1
      "t1" 10 2 = 1 := by
  decide

/-- Shared state of the tenant connection router: the
`initializedTenants` set of `tenantDatabaseService`, the `connections`
pool of config/db, and a counter of `mongoose.createConnection` calls
(doubling as the id of the next connection opened). -/
structure RouterState where
  initializedTenants : List String
  connections : List (String × Nat)
  opens : Nat
deriving DecidableEq, Repr

/-- Progress of one `initializeTenantDB(T)` call.  The call body is cut at
its suspension points: the synchronous prefix runs the
`initializedTenants.has` check and, inside `connectToTenantDB`, the
`connections[tenantId]` check, then suspends at the first Key Vault fetch
(the Mongo username); it suspends again at the second fetch (the
password); the resumed tail runs `createConnection`, stores it in the
pool and marks the tenant initialized.  (The tail merges the post-`await`
statements of both functions into one atomic step; merging only removes
interleavings and cannot create spurious ones.) -/
inductive TPhase where
  | start
  | awaitUser
  | awaitPwd
  | finished
deriving DecidableEq, Repr

/-- One in-flight `initializeTenantDB` call. -/
structure ThreadSt where
  phase : TPhase
  tenant : String
deriving DecidableEq, Repr

/-- JavaScript object assignment `connections[tenantId] = connection`:
the new entry replaces any previous one for the same key. -/
def setConn (l : List (String × Nat)) (t : String) (c : Nat) : List (String × Nat) :=
  (t, c) :: l.filter (fun p => !(p.1 = t))

/-- One atomic step of an `initializeTenantDB(T)` call. -/
def stepThread (rs : RouterState) (th : ThreadSt) : RouterState × ThreadSt :=
  match th.phase with
  | .start =>
    if th.tenant ∈ rs.initializedTenants then
      (rs, { th with phase := .finished })
    else
      match rs.connections.find? (fun p => p.1 = th.tenant) with
      | some _ =>
        ({ rs with initializedTenants := th.tenant :: rs.initializedTenants },
         { th with phase := .finished })
      | none => (rs, { th with phase := .awaitUser })
  | .awaitUser => (rs, { th with phase := .awaitPwd })
  | .awaitPwd =>
    ({ rs with opens := rs.opens + 1,
               connections := setConn rs.connections th.tenant (rs.opens + 1),
               initializedTenants := th.tenant :: rs.initializedTenants },
     { th with phase := .finished })
  | .finished => (rs, th)

/-- Run two concurrent `initializeTenantDB` calls under a schedule:
`false` steps the first call, `true` the second. -/
def runSched (rs : RouterState) (a b : ThreadSt) : List Bool → RouterState × ThreadSt × ThreadSt
  | [] => (rs, a, b)
  | c :: cs =>
    if c then
      let r := stepThread rs b
      runSched r.1 a r.2 cs
    else
      let r := stepThread rs a
      runSched r.1 r.2 b cs

/-- C9 evaluation at the failing interleaving — two concurrent first-time
`initializeTenantDB("T")` calls, each suspending at the Key Vault fetches
after both passed the (empty) pool check, open TWO connections: `opens = 2`
and the second connection overwrites the first in the pool (the first is
leaked, never closed).  There is no per-tenant lock or memoized in-flight
future anywhere in the source.  For contrast, the sequentialized schedule
(second call starts after the first finished) opens exactly one. -/
theorem router_duplicate_connections :
    ((runSched ⟨[], [], 0⟩ ⟨TPhase.start, "T"⟩ ⟨TPhase.start, "T"⟩
        [false, true, false, true, false, true]).1.opens = 2) ∧
    ((runSched ⟨[], [], 0⟩ ⟨TPhase.start, "T"⟩ ⟨TPhase.start, "T"⟩
        [false, true, false, true, false, true]).1.connections = [("T", 2)]) ∧
    ((runSched ⟨[], [], 0⟩ ⟨TPhase.start, "T"⟩ ⟨TPhase.start, "T"⟩
        [false, true, false, true, false, true]).2.1.phase = TPhase.finished) ∧
    ((runSched ⟨[], [], 0⟩ ⟨TPhase.start, "T"⟩ ⟨TPhase.start, "T"⟩
        [false, true, false, true, false, true]).2.2.phase = TPhase.finished) ∧
    ((runSched ⟨[], [], 0⟩ ⟨TPhase.start, "T"⟩ ⟨TPhase.start, "T"⟩
        [false, false, false, true]).1.opens = 1) := by
  decide

/-- Per-document decryption of the post-find hook's loop body
(`decryptFields` in the Chat/Message models): an empty `body` is skipped
(`if (doc.body && typeof doc.body === 'string')`), otherwise `doc.body` is
replaced by the decrypted value; a decryption failure
(`decryptDataWithNonce` throws) is `none`.  `dec` stands for
`decryptDataWithNonce` applied to the tenant's nonce/salt/password and the
decrypted-value cache. -/
def decryptMessageDoc (dec : String → Option String) (m : Message) : Option Message :=
  if m.body = "" then some m
  else
    match dec m.body with
    | some plain => some { m with body := plain }
    | none => none

/-- The `for (const doc of documents)` loop of the models'
`post(['find', 'findOne', 'findOneAndUpdate'])` hooks: every document is
decrypted inside ONE try/catch, and the catch calls `next(error)` — the
first failure escapes the loop and fails the whole query. -/
def decryptLoop (dec : String → Option String) : List Message → Except Unit (List Message)
  | [] => .ok []
  | d :: ds =>
    match decryptMessageDoc dec d with
    | none => .error ()
    | some d2 => (decryptLoop dec ds).map (fun rest => d2 :: rest)

/-- The post-find hook: when no tenant context (or no secrets) is
available the hook passes the documents through untouched; otherwise it
runs the decryption loop above. -/
def postFindDecrypt (hasTenantCtx : Bool) (dec : String → Option String)
    (docs : List Message) : Except Unit (List Message) :=
  if hasTenantCtx then decryptLoop dec docs else .ok docs

theorem decryptLoop_error_of_fail (dec : String → Option String) :
    ∀ docs : List Message, (∃ d ∈ docs, decryptMessageDoc dec d = none) →
      decryptLoop dec docs = .error () := by
  intro docs
  induction docs with
  | nil =>
    rintro ⟨d, hd, -⟩
    simp at hd
  | cons d ds ih =>
    rintro ⟨x, hx, hxf⟩
    unfold decryptLoop
    cases hd : decryptMessageDoc dec d with
    | none => rfl
    | some d2 =>
      rcases List.mem_cons.mp hx with rfl | hx
      · rw [hd] at hxf
        exact Option.noConfusion hxf
      · rw [ih ⟨x, hx, hxf⟩]
        rfl

theorem decryptLoop_ok_of_all (dec : String → Option String) :
    ∀ docs : List Message, (∀ d ∈ docs, decryptMessageDoc dec d ≠ none) →
      ∃ out, decryptLoop dec docs = .ok out := by
  intro docs
  induction docs with
  | nil => exact fun _ => ⟨[], rfl⟩
  | cons d ds ih =>
    intro hall
    unfold decryptLoop
    cases hd : decryptMessageDoc dec d with
    | none => exact absurd hd (hall d (List.mem_cons_self d ds))
    | some d2 =>
      obtain ⟨out, hout⟩ := ih (fun x hx => hall x (List.mem_cons_of_mem d hx))
      rw [hout]
      exact ⟨d2 :: out, rfl⟩

/-- C6 (amended) — Batch decryption failure is NOT isolated: when any
document of a multi-document read fails to decrypt, the post-find hook's
single try/catch passes the error to `next()`, so the whole query fails
and no batch is returned at all (when every document decrypts, the batch
is returned in full). -/
theorem postFindDecrypt_abort_amended (dec : String → Option String)
    (docs : List Message) (hfail : ∃ d ∈ docs, decryptMessageDoc dec d = none) :
    postFindDecrypt true dec docs = .error () ∧
    ∀ bs, postFindDecrypt true dec docs ≠ .ok bs := by
  have h : decryptLoop dec docs = .error () := decryptLoop_error_of_fail dec docs hfail
  have h2 : postFindDecrypt true dec docs = .error () := h
  refine ⟨h2, ?_⟩
  intro bs hbs
  rw [h2] at hbs
  exact Except.noConfusion hbs

/-- Decryption stub for the C6 examples: the ciphertext "bad" fails, all
other field values decrypt to themselves. -/
def c6Dec : String → Option String :=
  fun s => if s = "bad" then none else some s

/-- Three-document batch whose middle document fails to decrypt. -/
def c6Docs : List Message :=
  [{ id := 1, chatId := 1, senderId := 4, body := "x", viewers := [],
     reactions := [], deletedFor := [], createdAt := 1, tenantId := "t1" },
   { id := 2, chatId := 1, senderId := 5, body := "bad", viewers := [],
     reactions := [], deletedFor := [], createdAt := 2, tenantId := "t1" },
   { id := 3, chatId := 1, senderId := 4, body := "y", viewers := [],
     reactions := [], deletedFor := [], createdAt := 3, tenantId := "t1" }]

/-- C6 counterexample — a three-document read whose middle document fails
to decrypt does NOT return the batch with one failed field: the whole
query errors out. -/
theorem postFindDecrypt_counterexample :
    postFindDecrypt true c6Dec c6Docs = .error () ∧
    ∀ bs, postFindDecrypt true c6Dec c6Docs ≠ .ok bs := by
  constructor
  · rfl
  · intro bs hbs
    rw [show postFindDecrypt true c6Dec c6Docs = .error () from rfl] at hbs
    exact Except.noConfusion hbs

/-- Witness for C6's amended theorem at the same concrete batch. -/
theorem postFindDecrypt_abort_amended_witness :
    (∃ d ∈ c6Docs, decryptMessageDoc c6Dec d = none) ∧
    postFindDecrypt true c6Dec c6Docs = .error () :=
  ⟨by decide, (postFindDecrypt_abort_amended c6Dec c6Docs (by decide)).1⟩

/-- Lower-case hex digit of a value below 16 (`Buffer.toString("hex")`). -/
def hexDigitChar (n : Nat) : Char :=
  if n < 10 then Char.ofNat (48 + n) else Char.ofNat (87 + n)

/-- `Buffer.toString("hex")`: two lower-case hex digits per byte. -/
def bytesToHexChars : List Nat → List Char
  | [] => []
  | b :: bs => hexDigitChar (b / 16) :: hexDigitChar (b % 16) :: bytesToHexChars bs

/-- Hex-encode a byte list into a string. -/
def bytesToHex (bs : List Nat) : String :=
  String.mk (bytesToHexChars bs)

/-- Numeric value of one hex digit character. -/
def hexCharVal (c : Char) : Nat :=
  if 97 ≤ c.toNat then c.toNat - 87
  else if 65 ≤ c.toNat then c.toNat - 55
  else c.toNat - 48

/-- `Buffer.from(s, "hex")`: consume hex digits two at a time. -/
def hexCharsToBytes : List Char → List Nat
  | c1 :: c2 :: rest => (16 * hexCharVal c1 + hexCharVal c2) :: hexCharsToBytes rest
  | _ => []

/-- Hex-decode a string into a byte list. -/
def hexToBytes (s : String) : List Nat :=
  hexCharsToBytes s.data

theorem hexCharVal_hexDigitChar (n : Nat) (h : n < 16) :
    hexCharVal (hexDigitChar n) = n := by
  interval_cases n <;> decide

theorem hexCharsToBytes_bytesToHexChars (bs : List Nat) (h : ∀ b ∈ bs, b < 256) :
    hexCharsToBytes (bytesToHexChars bs) = bs := by
  induction bs with
  | nil => rfl
  | cons b bs ih =>
    have hb : b < 256 := h b (List.mem_cons_self b bs)
    unfold bytesToHexChars hexCharsToBytes
    rw [hexCharVal_hexDigitChar (b / 16) (by omega),
      hexCharVal_hexDigitChar (b % 16) (Nat.mod_lt _ (by norm_num)),
      Nat.div_add_mod b 16,
      ih (fun x hx => h x (List.mem_cons_of_mem b hx))]

theorem hexToBytes_bytesToHex (bs : List Nat) (h : ∀ b ∈ bs, b < 256) :
    hexToBytes (bytesToHex bs) = bs :=
  hexCharsToBytes_bytesToHexChars bs h

/-- The XChaCha20 keystream XOR: byte `i` of the message is XORed with
byte `i` of the (key, nonce)-determined stream `ks`. -/
def xorFrom (ks : Nat → Nat) (i : Nat) : List Nat → List Nat
  | [] => []
  | b :: bs => (b ^^^ ks i) :: xorFrom ks (i + 1) bs

theorem xorFrom_length (ks : Nat → Nat) : ∀ (i : Nat) (bs : List Nat),
    (xorFrom ks i bs).length = bs.length := by
  intro i bs
  induction bs generalizing i with
  | nil => rfl
  | cons b bs ih => simp [xorFrom, ih]

theorem xorFrom_xorFrom (ks : Nat → Nat) : ∀ (i : Nat) (bs : List Nat),
    xorFrom ks i (xorFrom ks i bs) = bs := by
  intro i bs
  induction bs generalizing i with
  | nil => rfl
  | cons b bs ih => simp [xorFrom, ih, Nat.xor_cancel_right]

theorem xor_lt_256 {a b : Nat} (ha : a < 256) (hb : b < 256) : a ^^^ b < 256 := by
  have h : Nat.bitwise bne a b < 2 ^ 8 :=
    Nat.bitwise_lt ((show (256 : Nat) = 2 ^ 8 by norm_num) ▸ ha)
      ((show (256 : Nat) = 2 ^ 8 by norm_num) ▸ hb)
  exact (show (2 : Nat) ^ 8 = 256 by norm_num) ▸ h

theorem xorFrom_lt (ks : Nat → Nat) (hks : ∀ j, ks j < 256) :
    ∀ (i : Nat) (bs : List Nat), (∀ b ∈ bs, b < 256) →
      ∀ x ∈ xorFrom ks i bs, x < 256 := by
  intro i bs
  induction bs generalizing i with
  | nil => simp [xorFrom]
  | cons b bs ih =>
    intro h x hx
    rw [xorFrom] at hx
    rcases List.mem_cons.mp hx with rfl | hx
    · exact xor_lt_256 (h b (List.mem_cons_self b bs)) (hks i)
    · exact ih (i + 1) (fun y hy => h y (List.mem_cons_of_mem b hy)) x hx

/-- `crypto_aead_xchacha20poly1305_ietf_encrypt`: the ciphertext is the
keystream-XORed message followed by the 16-byte Poly1305 tag computed
over that ciphertext (`ABYTES = 16`).  `ks` and `mac` are the libsodium
primitives already keyed by the (key, nonce) pair. -/
def sodiumAeadEncrypt (ks : Nat → Nat) (mac : List Nat → List Nat) (msg : List Nat) : List Nat :=
  xorFrom ks 0 msg ++ mac (xorFrom ks 0 msg)

/-- `crypto_aead_xchacha20poly1305_ietf_decrypt`: allocate
`ciphertext.length - ABYTES` (failing when the ciphertext is shorter than
the tag), verify the recomputed tag, then XOR the keystream back;
a tag mismatch yields `none` (`Decryption failed` in the source). -/
def sodiumAeadDecrypt (ks : Nat → Nat) (mac : List Nat → List Nat) (ct : List Nat) : Option (List Nat) :=
  if ct.length < 16 then none
  else if mac (ct.take (ct.length - 16)) = ct.drop (ct.length - 16)
    then some (xorFrom ks 0 (ct.take (ct.length - 16)))
    else none

/-- `deriveKey(password, salt)`: the Argon2id KDF (64 MiB, 3 passes, one
lane, 32-byte raw output) is deterministic per (password, salt); its
24-hour cache stores exactly that deterministic value, so the cached path
is modelled as the pure function `argon2id` itself. -/
def deriveKey (argon2id : String → String → List Nat) (password salt : String) : List Nat :=
  argon2id password salt

/-- `encryptDataWithNonce(plaintext, salt, nonce, encryptionPassword)`:
derive the key, parse the hex nonce, AEAD-encrypt, hex-encode.  The
plaintext is modelled as its UTF-8 byte list. -/
def encryptDataWithNonce (keystream : List Nat → List Nat → Nat → Nat)
    (poly1305 : List Nat → List Nat → List Nat → List Nat)
    (argon2id : String → String → List Nat)
    (plaintext : List Nat) (salt nonce password : String) : String :=
  bytesToHex
    (sodiumAeadEncrypt
      (keystream (deriveKey argon2id password salt) (hexToBytes nonce))
      (poly1305 (deriveKey argon2id password salt) (hexToBytes nonce))
      plaintext)

/-- `decryptDataWithNonce(ciphertextHex, nonceHex, salt, encryptionPassword)`
without a cache key: derive the same key, parse the hex inputs,
AEAD-decrypt.  (With a cache key the function first returns a previously
stored plaintext; the claim is about the cryptographic path.) -/
def decryptDataWithNonce (keystream : List Nat → List Nat → Nat → Nat)
    (poly1305 : List Nat → List Nat → List Nat → List Nat)
    (argon2id : String → String → List Nat)
    (ciphertextHex nonceHex salt password : String) : Option (List Nat) :=
  sodiumAeadDecrypt
    (keystream (deriveKey argon2id password salt) (hexToBytes nonceHex))
    (poly1305 (deriveKey argon2id password salt) (hexToBytes nonceHex))
    (hexToBytes ciphertextHex)

theorem sodiumAead_roundtrip (ks : Nat → Nat) (mac : List Nat → List Nat) (p : List Nat)
    (hmacLen : (mac (xorFrom ks 0 p)).length = 16) :
    sodiumAeadDecrypt ks mac (sodiumAeadEncrypt ks mac p) = some p := by
  unfold sodiumAeadEncrypt sodiumAeadDecrypt
  have hclen : (xorFrom ks 0 p).length = p.length := xorFrom_length ks 0 p
  have hlen2 : (xorFrom ks 0 p ++ mac (xorFrom ks 0 p)).length = p.length + 16 := by
    rw [List.length_append, hclen, hmacLen]
  rw [if_neg (by rw [hlen2]; omega)]
  have hsub : (xorFrom ks 0 p ++ mac (xorFrom ks 0 p)).length - 16 = (xorFrom ks 0 p).length := by
    rw [hlen2, hclen]
    omega
  rw [hsub, List.take_left, List.drop_left, if_pos rfl, xorFrom_xorFrom]

/-- C3 — Encryption round-trip: for every plaintext of byte length 0–5000
and every (salt, nonce, password) triple, decrypting the ciphertext
produced by `encryptDataWithNonce` under the key derived from
(password, salt) and the same nonce returns exactly the plaintext.  Stated
for every keystream / Poly1305 / Argon2id primitive whose bytes are bytes
and whose tag is 16 bytes — i.e. for the actual libsodium functions in
particular. -/
theorem encrypt_decrypt_roundtrip
    (keystream : List Nat → List Nat → Nat → Nat)
    (poly1305 : List Nat → List Nat → List Nat → List Nat)
    (argon2id : String → String → List Nat)
    (hks : ∀ k n i, keystream k n i < 256)
    (hmacLen : ∀ k n c, (poly1305 k n c).length = 16)
    (hmacB : ∀ k n c, ∀ b ∈ poly1305 k n c, b < 256)
    (p : List Nat) (hp : ∀ b ∈ p, b < 256) (hplen : p.length ≤ 5000)
    (salt nonce password : String) :
    decryptDataWithNonce keystream poly1305 argon2id
      (encryptDataWithNonce keystream poly1305 argon2id p salt nonce password)
      nonce salt password = some p := by
  unfold encryptDataWithNonce decryptDataWithNonce
  have hallbytes : ∀ x ∈ sodiumAeadEncrypt
      (keystream (deriveKey argon2id password salt) (hexToBytes nonce))
      (poly1305 (deriveKey argon2id password salt) (hexToBytes nonce)) p, x < 256 := by
    intro x hx
    unfold sodiumAeadEncrypt at hx
    rcases List.mem_append.mp hx with hx | hx
    · exact xorFrom_lt _ (hks _ _) 0 p hp x hx
    · exact hmacB _ _ _ x hx
  rw [hexToBytes_bytesToHex _ hallbytes]
  exact sodiumAead_roundtrip _ _ p (hmacLen _ _ _)

/-- Constant-stream stand-in for the keystream primitive (witness only). -/
def wKeystream : List Nat → List Nat → Nat → Nat := fun _ _ _ => 7

/-- Constant-tag stand-in for the Poly1305 primitive (witness only). -/
def wPoly : List Nat → List Nat → List Nat → List Nat := fun _ _ _ => List.replicate 16 3

/-- Constant stand-in for the Argon2id primitive (witness only). -/
def wArgon : String → String → List Nat := fun _ _ => [1, 2]

/-- Witness for C3 at the concrete plaintext "hi" ([104, 105]). -/
theorem encrypt_decrypt_roundtrip_witness :
    decryptDataWithNonce wKeystream wPoly wArgon
      (encryptDataWithNonce wKeystream wPoly wArgon [104, 105] "ab" "0f" "pw")
      "0f" "ab" "pw" = some [104, 105] :=
  encrypt_decrypt_roundtrip wKeystream wPoly wArgon
    (fun _ _ _ => by unfold wKeystream; decide) (fun _ _ _ => rfl)
    (fun _ _ _ b hb => by
      have hb2 : b ∈ List.replicate 16 3 := hb
      rw [List.eq_of_mem_replicate hb2]
      decide)
    [104, 105] (by decide) (by decide) "ab" "0f" "pw"
